import Mathlib

/-!
# Verification of the dual-representation telemetry storage scripts

Shallow embedding of `binary-telemetry-storage/data_insert.py` and
`binary-telemetry-storage/data_retrieval.py`, plus proofs settling the
frozen claims about them.

Modelling conventions:
* Python floats are modelled as `Rat` (exact rationals); the claims about
  aggregate agreement either assert exact equality of timestamps or allow a
  floating-point tolerance for sums, and in the rational model the relevant
  quantities are exactly equal.
* A pandas timestamp (`pd.to_datetime(..., utc=True)`) is a UTC instant; we
  model it as a calendar year plus an opaque offset within the year, ordered
  lexicographically.  Both Postgres `extract(YEAR from date)` and pandas
  `.dt.year` read the `year` component of the same instant.
* Uncaught Python exceptions that terminate a script are modelled with
  `Except PyErr`; `IndexError` from `res[0]` on an empty result set and
  `ValueError` from `random.sample` are the two relevant ones on the
  retrieval side.
-/

namespace BinaryTelemetry

/-- A UTC instant: calendar year plus an opaque ordering offset inside the
year.  Models a `pd.to_datetime(..., utc=True)` timestamp; both SQL
`extract(YEAR from date)` and pandas `.dt.year` return `year`. -/
structure Date where
  year : Int
  ofs : Nat
deriving DecidableEq, Repr

/-- Lexicographic order on instants (year first, then offset), as `Bool`. -/
def Date.leb (a b : Date) : Bool :=
  if a.year < b.year then true
  else if b.year < a.year then false
  else decide (a.ofs ≤ b.ofs)

/-- One normalized observation: the contents of one row of the normalized
frame (`date` index, `hm0`, `tp`) in `data_insert.py`. -/
structure Obs where
  date : Date
  hm0 : Rat
  tp : Rat
deriving DecidableEq, Repr

/-! ## Raw source data and per-station normalization

`data_insert.py` lines 150-186: concatenate the per-year tables, remove the
embedded unit row (`data[data["WVHT"] != "m"]`), keep only `WVHT`/`DPD`,
coerce to float (`astype(float)` raises on any non-numeric cell, and the
surrounding `try/except: continue` then skips the whole station), sort by
the timestamp index and rename to `hm0`/`tp`. -/

/-- A raw table cell for `WVHT` or `DPD`: either a numeric value (anything
`astype(float)` coerces) or a non-numeric text such as the unit marker. -/
inductive Cell where
  | num : Rat → Cell
  | raw : String → Cell
deriving DecidableEq, Repr

/-- The unit-marker text embedded by the source in repeated header rows. -/
def unitMarker : String := "m"

/-- The station excluded by hand in `data_insert.py` line 117. -/
def badStation : String := "41001"

/-- `astype(float)` on one cell: numeric cells coerce, raw text raises. -/
def Cell.toFloat? : Cell → Option Rat
  | .num q => some q
  | .raw _ => none

/-- The row-filter predicate `data["WVHT"] != "m"`: numeric cells compare
unequal to the text, raw text is compared literally. -/
def Cell.neqM : Cell → Bool
  | .num _ => true
  | .raw s => s ≠ unitMarker

/-- One raw row of a station-year table: the timestamp index plus the two
required columns (other columns are dropped by the column selection). -/
structure RawRow where
  date : Date
  wvht : Cell
  dpd : Cell
deriving DecidableEq, Repr

/-- Coerce one raw row to an observation; `none` when either required cell
fails `astype(float)`. -/
def coerceRow (r : RawRow) : Option Obs :=
  match r.wvht.toFloat?, r.dpd.toFloat? with
  | some h, some t => some ⟨r.date, h, t⟩
  | _, _ => none

/-- `astype(float)` over the whole filtered frame: all-or-nothing — any
non-coercible cell raises for the entire frame. -/
def coerceAll : List RawRow → Option (List Obs)
  | [] => some []
  | r :: rest =>
    match coerceRow r, coerceAll rest with
    | some o, some os => some (o :: os)
    | _, _ => none

/-- Insert an observation into a date-sorted list (helper for the sort). -/
def insertByDate (o : Obs) : List Obs → List Obs
  | [] => [o]
  | x :: xs => if Date.leb x.date o.date then x :: insertByDate o xs else o :: x :: xs

/-- `data.sort_index()`: sort observations by timestamp ascending. -/
def sortByDate : List Obs → List Obs
  | [] => []
  | x :: xs => insertByDate x (sortByDate xs)

/-- Normalization of one station's year-tables (`data_insert.py` lines
155-177): concatenate, drop unit rows, coerce both required columns to
float — any failure skips the whole station (`except: continue`) — and
sort by timestamp.  `none` models the station being skipped. -/
def normalizeStation (tables : List (List RawRow)) : Option (List Obs) :=
  match coerceAll ((tables.flatten).filter (fun r => r.wvht.neqM)) with
  | none => none
  | some rows => some (sortByDate rows)

/-! ## Station eligibility and accumulation

`data_insert.py` lines 104-187.  A station is modelled by its identifier,
its `year` column entries from the availability listing, and the outcome of
`ndbc.request_data` + `pd.concat` for it (`none` models any of the broad
`except: continue` failure cases before normalization: fetch/parse failure
or malformed columns that make `pd.concat`/column selection raise). -/

/-- One station from the availability listing, with its fetch outcome. -/
structure Station where
  id : String
  years : List Int
  fetch : Option (List (List RawRow))
deriving DecidableEq, Repr

/-- `year_span = 10` (line 111): minimum number of distinct years. -/
def year_span : Nat := 10

/-- `mem_desired = 500` (line 126): memory budget in MB. -/
def mem_desired : Rat := 500

/-- Lines 114-122: keep stations other than `"41001"` whose availability
listing shows at least `year_span` distinct years. -/
def found (stations : List Station) : List Station :=
  stations.filter (fun s => s.id != badStation && decide (year_span ≤ s.years.dedup.length))

/-- `data.memory_usage(deep=True).sum() / 1e6` for the normalized frame:
four 8-byte columns (`hm0`, `tp`, `date`, `data_set_id`) over a
`RangeIndex` (constant index header).  The claims depend only on the loop
structure, never on this particular constant. -/
def memSizeMB (rows : List Obs) : Rat :=
  ((128 : Rat) + 32 * rows.length) / 1000000

/-- One entry of the `data_sets` dict: key `index + 1`, source station
identifier (provenance, printed at line 137), normalized data and its size
in MB. -/
structure DataSetEntry where
  key : Nat
  station : String
  data : List Obs
  dataSize : Rat
deriving DecidableEq, Repr

/-- The accumulator state: `mem_used` and the `data_sets` dict (insertion
order). -/
structure Accum where
  memUsed : Rat
  sets : List DataSetEntry
deriving DecidableEq, Repr

/-- The accumulation loop (`data_insert.py` lines 134-187): iterate the
eligible stations with their loop index, break once `mem_used >=
mem_desired`, skip a station on fetch or normalization failure, and
otherwise append an entry keyed `index + 1` and add its size to the
running total. -/
def accumGo (budget : Rat) : Nat → List Station → Accum → Accum
  | _, [], acc => acc
  | index, s :: rest, acc =>
    if budget ≤ acc.memUsed then acc
    else
      match s.fetch with
      | none => accumGo budget (index + 1) rest acc
      | some tables =>
        match normalizeStation tables with
        | none => accumGo budget (index + 1) rest acc
        | some rows =>
          accumGo budget (index + 1) rest
            ⟨acc.memUsed + memSizeMB rows,
             acc.sets ++ [⟨index + 1, s.id, rows, memSizeMB rows⟩]⟩

/-- Full accumulation over the eligibility-filtered stations, starting from
`mem_used = 0` and an empty dict. -/
def accumulate (budget : Rat) (stations : List Station) : Accum :=
  accumGo budget 0 (found stations) ⟨0, []⟩

/-! ## Dual storage writer

`data_insert.py` lines 208-234.  For each accumulated dataset, in dict
insertion order: bulk-append one row per observation to `row_data`
(columns `hm0`, `tp`, `date`, `data_set_id`), then drop `data_set_id`,
serialize the remaining frame with `to_csv` (pandas writes the header line
and the `RangeIndex` as an unnamed leading column) and insert the payload
as one `binary_data` row keyed by the dataset id.  The `data_size` insert
is not referenced by any claim and is omitted. -/

/-- One row of the `row_data` table. -/
structure RowRecord where
  data_set_id : Nat
  date : Date
  hm0 : Rat
  tp : Rat
deriving DecidableEq, Repr

/-- One parsed line of the serialized CSV payload: leading index column,
then the data columns by header name.  (The textual rendering and parsing
of numerals is exact at this granularity; the round-trip claim itself
excludes floating-point formatting precision.) -/
structure CsvRow where
  idx : Nat
  hm0 : Rat
  tp : Rat
  date : Date
deriving DecidableEq, Repr

/-- The header line written by `to_csv`: unnamed index column then the data
columns (`hm0`/`tp` order follows Python set iteration; `read_csv` maps
columns by name, so it is immaterial). -/
def headerCols : List String := ["", "hm0", "tp", "date"]

/-- The full serialized payload of one dataset: header plus rows. -/
structure Payload where
  header : List String
  rows : List CsvRow
deriving DecidableEq, Repr

/-- One row of the `binary_data` table. -/
structure BlobRecord where
  data_set_id : Nat
  data : Payload
deriving DecidableEq, Repr

/-- `data.to_csv(buf)` after `data.drop(columns=["data_set_id"])`: the
dataset identifier is excluded; each observation becomes one line carrying
its `RangeIndex` position. -/
def serializePayload (rows : List Obs) : Payload :=
  ⟨headerCols, rows.enum.map (fun p => ⟨p.1, p.2.hm0, p.2.tp, p.2.date⟩)⟩

/-- `pd.read_csv` of a payload, viewed through the columns the harness
uses (`date`, `hm0`, `tp`; the recovered unnamed index column is ignored
by every later computation). -/
def deserializePayload (p : Payload) : List Obs :=
  p.rows.map (fun r => ⟨r.date, r.hm0, r.tp⟩)

/-- `data.to_sql(name="row_data", ...)`: one row per observation, carrying
the dataset key set at accumulation time. -/
def writeRows (key : Nat) (rows : List Obs) : List RowRecord :=
  rows.map (fun o => ⟨key, o.date, o.hm0, o.tp⟩)

/-- The whole `row_data` table after the writer loop (append semantics, in
dict insertion order). -/
def allRowRecords (sets : List DataSetEntry) : List RowRecord :=
  sets.flatMap (fun e => writeRows e.key e.data)

/-- The whole `binary_data` table after the writer loop: one blob per
dataset, keyed by the dataset id, payload from `to_csv`. -/
def allBlobRecords (sets : List DataSetEntry) : List BlobRecord :=
  sets.map (fun e => ⟨e.key, serializePayload e.data⟩)

/-! ## Benchmark harness (`data_retrieval.py`)

Uncaught exceptions terminate the script; the two reachable ones are
modelled explicitly. -/

/-- Uncaught Python exceptions of the retrieval script: `IndexError` from
`res[0]` on an empty result list (lines 173, 240) and `ValueError` from
`random.sample` when the population is smaller than 2 (line 148). -/
inductive PyErr where
  | indexError
  | valueError
deriving DecidableEq, Repr

/-- `Except.ok`-ness as a `Bool` (the run completed without an uncaught
exception). -/
def exceptOk {α : Type} : Except PyErr α → Bool
  | .ok _ => true
  | .error _ => false

/-- `availabe_ids = list(range(1, 58))` (line 122, name as in source):
the hard-coded queried identifiers 1..57. -/
def availabe_ids : List Nat := List.range' 1 57

/-- `SELECT * FROM row_data where data_set_id = {}` — the row store keeps
insertion order in the model; every aggregate computed from the result is
order-independent, so the unspecified SQL result order is immaterial. -/
def rowsFor (store : List RowRecord) (i : Nat) : List RowRecord :=
  store.filter (fun r => r.data_set_id == i)

/-- `SELECT * from binary_data where data_set_id = (:set_id)` followed by
`fetchall()`. -/
def binaryQ (store : List BlobRecord) (i : Nat) : List BlobRecord :=
  store.filter (fun r => r.data_set_id == i)

/-- Minimum of a list of instants (`d.date.min()`); `none` models pandas
`NaT` on an empty frame. -/
def dateMin? (l : List Date) : Option Date :=
  l.foldl (fun acc d =>
    match acc with
    | none => some d
    | some m => some (if Date.leb d m then d else m)) none

/-- Maximum of a list of instants (`d.date.max()`); `none` models `NaT`. -/
def dateMax? (l : List Date) : Option Date :=
  l.foldl (fun acc d =>
    match acc with
    | none => some d
    | some m => some (if Date.leb m d then d else m)) none

/-- `d["tp"].sum()` (0 on an empty frame, as in pandas). -/
def tpSumObs (l : List Obs) : Rat :=
  l.foldl (fun a o => a + o.tp) 0

/-- The three comparison aggregates the harness computes per dataset and
representation (elapsed wall-clock time is real time and is not modelled). -/
structure Agg where
  min_date : Option Date
  max_date : Option Date
  tp_sum : Rat
deriving DecidableEq, Repr

/-- Aggregates of a list of observations. -/
def aggOfObs (l : List Obs) : Agg :=
  ⟨dateMin? (l.map Obs.date), dateMax? (l.map Obs.date), tpSumObs l⟩

/-- View a `row_data` row as its observation content. -/
def RowRecord.toObs (r : RowRecord) : Obs :=
  ⟨r.date, r.hm0, r.tp⟩

/-- Full-scan aggregates of representation R for one id (lines 157-167). -/
def rowFullAgg (R : List RowRecord) (i : Nat) : Agg :=
  aggOfObs ((rowsFor R i).map RowRecord.toObs)

/-- Full-scan aggregates of representation B for one id (lines 171-182):
take `res[0]`, deserialize, aggregate; `none` when the result is empty. -/
def binFullAgg (B : List BlobRecord) (i : Nat) : Option Agg :=
  ((binaryQ B i).head?).map (fun blob => aggOfObs (deserializePayload blob.data))

/-- One request built at lines 144-149: dataset id and the sampled
inclusive year window. -/
structure ReqParam where
  id : Nat
  start_year : Int
  end_year : Int
deriving DecidableEq, Repr

/-- The year predicate shared by the pushed-down SQL filter
(`extract(YEAR from date) >= {start_year} and <= {end_year}`, lines
195-199) and the in-memory mask (`d_binary["date"].dt.year`, lines
244-246): both bounds inclusive, both reading the calendar year of the
same UTC instant. -/
def yearInRange (p : ReqParam) (d : Date) : Bool :=
  decide (p.start_year ≤ d.year) && decide (d.year ≤ p.end_year)

/-- The filtered row query result for one request (lines 195-199, 224). -/
def rowsFilteredQ (R : List RowRecord) (p : ReqParam) : List RowRecord :=
  R.filter (fun r => r.data_set_id == p.id && yearInRange p r.date)

/-- Filtered-scan aggregates of representation R for one request. -/
def rowFilteredAgg (R : List RowRecord) (p : ReqParam) : Agg :=
  aggOfObs ((rowsFilteredQ R p).map RowRecord.toObs)

/-- Filtered-scan aggregates of representation B for one request (lines
237-255): fetch blob via `res[0]`, deserialize the full payload, mask by
the same inclusive year bounds in memory, aggregate. -/
def binFilteredAgg (B : List BlobRecord) (p : ReqParam) : Option Agg :=
  ((binaryQ B p.id).head?).map
    (fun blob => aggOfObs ((deserializePayload blob.data).filter (fun o => yearInRange p o.date)))

/-- One row of the `data_log_rows` dict: the script stores
`d_rows["data_set_id"].unique()` (a list) plus the aggregates. -/
structure RowLogEntry where
  set_id : List Nat
  agg : Agg
deriving DecidableEq, Repr

/-- One row of the `data_log_binary` dict: `res[0]["data_set_id"]` plus the
aggregates. -/
structure BinLogEntry where
  set_id : Nat
  agg : Agg
deriving DecidableEq, Repr

/-- `d_rows["data_set_id"].unique()`. -/
def uniqueSetIds (rows : List RowRecord) : List Nat :=
  (rows.map (fun r => r.data_set_id)).dedup

/-- The full-scan loop (lines 152-185) over a list of ids: for each id,
log the row-representation aggregates, then fetch the blob result and take
`res[0]` — an empty result raises `IndexError` and terminates the script
(no report file is written). -/
def fullScanGo (R : List RowRecord) (B : List BlobRecord) :
    List Nat → Except PyErr (List RowLogEntry × List BinLogEntry)
  | [] => .ok ([], [])
  | i :: rest =>
    match (binaryQ B i).head? with
    | none => .error .indexError
    | some blob =>
      match fullScanGo R B rest with
      | .error e => .error e
      | .ok (rl, bl) =>
        .ok (⟨uniqueSetIds (rowsFor R i), rowFullAgg R i⟩ :: rl,
             ⟨blob.data_set_id, aggOfObs (deserializePayload blob.data)⟩ :: bl)

/-- The full-scan loop over the hard-coded ids 1..57. -/
def fullScan (R : List RowRecord) (B : List BlobRecord) :
    Except PyErr (List RowLogEntry × List BinLogEntry) :=
  fullScanGo R B availabe_ids

/-- The filtered-scan loop (lines 218-258) over the request list: for each
request, log the pushed-down row-query aggregates, then fetch the blob via
`res[0]` (empty result raises `IndexError`), deserialize, mask in memory by
the same inclusive year bounds and log the aggregates. -/
def filteredScanGo (R : List RowRecord) (B : List BlobRecord) :
    List ReqParam → Except PyErr (List RowLogEntry × List BinLogEntry)
  | [] => .ok ([], [])
  | p :: rest =>
    match (binaryQ B p.id).head? with
    | none => .error .indexError
    | some blob =>
      match filteredScanGo R B rest with
      | .error e => .error e
      | .ok (rl, bl) =>
        .ok (⟨uniqueSetIds (rowsFilteredQ R p), rowFilteredAgg R p⟩ :: rl,
             ⟨blob.data_set_id,
              aggOfObs ((deserializePayload blob.data).filter (fun o => yearInRange p o.date))⟩ :: bl)

/-- The filtered-scan loop as invoked by the script. -/
def filteredScan (R : List RowRecord) (B : List BlobRecord) (reqs : List ReqParam) :
    Except PyErr (List RowLogEntry × List BinLogEntry) :=
  filteredScanGo R B reqs

/-! ## Request building (lines 132-149)

`req_query` groups `row_data` by `data_set_id` with `min(date)`/`max(date)`
(SQL GROUP BY result order is unspecified; groups are nonempty by
construction).  For each group the script reads the years of the two
bounds and calls `random.sample(range(start, end), 2)` — which raises
`ValueError` when the population `end - start` has fewer than 2 members —
then uses the smaller sample as `start_year` and the larger as
`end_year`. -/

/-- The distinct `data_set_id` values of the row store (one group each). -/
def datasetIds (R : List RowRecord) : List Nat :=
  (R.map (fun r => r.data_set_id)).dedup

/-- Year of an optional bound; the `none` branch is unreachable for SQL
GROUP BY groups, which are never empty. -/
def yearOrZero : Option Date → Int
  | some d => d.year
  | none => 0

/-- One row of `req_info`: the group id and the years of its date bounds. -/
structure GroupInfo where
  data_set_id : Nat
  startYear : Int
  endYear : Int
deriving DecidableEq, Repr

/-- `req_info` (lines 132-139) with the per-row year extraction of lines
145-146 already applied. -/
def reqInfoOf (R : List RowRecord) : List GroupInfo :=
  (datasetIds R).map (fun i =>
    ⟨i, yearOrZero (dateMin? ((rowsFor R i).map (fun r => r.date))),
        yearOrZero (dateMax? ((rowsFor R i).map (fun r => r.date)))⟩)

/-- Line 149: build one request from a group and the two sampled years,
using the smaller as the window start and the larger as the end. -/
def mkRequest (g : GroupInfo) (a b : Int) : ReqParam :=
  ⟨g.data_set_id, min a b, max a b⟩

/-- The request-building loop, with the random draws supplied by `sampler`
(one pair per group position, standing for `random.sample`'s output; the
guard models the `ValueError` it raises when `range(start, end)` has fewer
than 2 members). -/
def buildRequestsGo (sampler : Nat → Int × Int) :
    List GroupInfo → Nat → Except PyErr (List ReqParam)
  | [], _ => .ok []
  | g :: rest, n =>
    if g.endYear - g.startYear < 2 then .error .valueError
    else
      match buildRequestsGo sampler rest (n + 1) with
      | .error e => .error e
      | .ok rs => .ok (mkRequest g (sampler n).1 (sampler n).2 :: rs)

/-- The request-building loop as invoked by the script. -/
def buildRequests (R : List RowRecord) (sampler : Nat → Int × Int) :
    Except PyErr (List ReqParam) :=
  buildRequestsGo sampler (reqInfoOf R) 0

/-- The four report tables the script writes at lines 191-192 and 264-265. -/
structure RunResult where
  fullRows : List RowLogEntry
  fullBinary : List BinLogEntry
  filteredRows : List RowLogEntry
  filteredBinary : List BinLogEntry
deriving DecidableEq, Repr

/-- The whole retrieval script in execution order: build the random
requests first (lines 141-149), then the full-scan loop, then the
filtered-scan loop; any uncaught exception terminates the run before the
remaining stages, so an `error` result carries no measurements at all. -/
def runRetrieval (R : List RowRecord) (B : List BlobRecord)
    (sampler : Nat → Int × Int) : Except PyErr RunResult :=
  match buildRequests R sampler with
  | .error e => .error e
  | .ok reqs =>
    match fullScan R B with
    | .error e => .error e
    | .ok full =>
      match filteredScan R B reqs with
      | .error e => .error e
      | .ok filt => .ok ⟨full.1, full.2, filt.1, filt.2⟩

/-! ## The model of `random.sample`'s guarantee

`random.sample(range(lo, hi), 2)` returns two distinct members of the
half-open integer range `[lo, hi)`.  The claims about the derived window
quantify over any such draw. -/

/-- Two integers drawn by `random.sample(range(lo, hi), 2)`: both in
`[lo, hi)` and distinct. -/
def sampledFrom (lo hi a b : Int) : Prop :=
  lo ≤ a ∧ a < hi ∧ lo ≤ b ∧ b < hi ∧ a ≠ b

/-! ## Concrete instances used by counterexamples and witnesses -/

/-- An instant in year 2000. -/
def dA : Date := ⟨2000, 0⟩

/-- An instant in year 2003. -/
def dB : Date := ⟨2003, 5⟩

/-- A well-formed observation. -/
def cObsOk : Obs := ⟨dA, 1, 5⟩

/-- A second well-formed observation. -/
def cObsB : Obs := ⟨dB, 2, 3⟩

/-- A raw row whose two required cells both coerce. -/
def cRawOk : RawRow := ⟨dA, .num 1, .num 5⟩

/-- Non-numeric text (not the unit marker) for a corrupted cell. -/
def corruptText : String := "9..1"

/-- A raw row whose `WVHT` cell is corrupted: not the unit marker, and not
coercible by `astype(float)`. -/
def cRawBad : RawRow := ⟨dB, .raw corruptText, .num 4⟩

/-- A station's year-tables holding one good row and one corrupted row. -/
def cTablesC4 : List (List RawRow) := [[cRawOk, cRawBad]]

/-- Twelve distinct availability years (satisfies the 10-year minimum). -/
def cYears : List Int :=
  [2000, 2001, 2002, 2003, 2004, 2005, 2006, 2007, 2008, 2009, 2010, 2011]

/-- An eligible station whose fetch fails (`SourceUnavailable`). -/
def cStFail : Station := ⟨"STF", cYears, none⟩

/-- An eligible station whose fetch and normalization succeed. -/
def cStOk : Station := ⟨"STO", cYears, some [[cRawOk]]⟩

/-- Two eligible stations, the first of which is skipped. -/
def cStationsC3 : List Station := [cStFail, cStOk]

/-- The single dataset entry that `accumulate` produces from
`cStationsC3`: it is keyed `2` (loop index 1, plus one). -/
def cEntryC3 : DataSetEntry := ⟨2, "STO", [cObsOk], memSizeMB [cObsOk]⟩

/-- A station with a single availability year (below the minimum span). -/
def cStSmall : Station := ⟨"SML", [2004], some [[cRawOk]]⟩

/-- Station list for the year-span exclusion witness. -/
def cStationsC7 : List Station := [cStSmall, cStOk]

/-- A written dataset entry for the cross-representation witness. -/
def cEntryC2 : DataSetEntry := ⟨1, "STO", [cObsOk, cObsB], memSizeMB [cObsOk, cObsB]⟩

/-- A one-dataset writer output for the cross-representation witness. -/
def cSetsC2 : List DataSetEntry := [cEntryC2]

/-- A row store covering every hard-coded id 1..57, each dataset holding
two rows (years 2000 and 2003, `tp` 5 each, so the full-scan `tp` sum per
dataset is 10). -/
def cRowStoreC1 : List RowRecord :=
  (List.range' 1 57).flatMap (fun i => [⟨i, dA, 1, 5⟩, ⟨i, dB, 1, 5⟩])

/-- A blob store covering every id 1..57 whose payloads disagree with
`cRowStoreC1`: a single observation with `tp = 7`, so the full-scan `tp`
sum per dataset is 7, not 10. -/
def cBlobStoreC1 : List BlobRecord :=
  (List.range' 1 57).map (fun i => ⟨i, serializePayload [⟨dA, 1, 7⟩]⟩)

/-- A fixed admissible outcome for every `random.sample` draw over
`range(2000, 2003)`. -/
def cSampler : Nat → Int × Int := fun _ => (2000, 2001)

/-- A row store whose single dataset spans a single calendar year. -/
def cRowStoreC10 : List RowRecord := [⟨1, dA, 1, 2⟩]

/-! ## Helper lemmas -/

/-- `to_csv` then `read_csv` reproduces the observation list exactly (at
the value level; textual numeral formatting is exact at this
granularity). -/
lemma deserialize_serialize (rows : List Obs) :
    deserializePayload (serializePayload rows) = rows := by
  unfold deserializePayload serializePayload
  rw [List.map_map]
  have h : ((fun r : CsvRow => (⟨r.date, r.hm0, r.tp⟩ : Obs)) ∘
      fun p : Nat × Obs => (⟨p.1, p.2.hm0, p.2.tp, p.2.date⟩ : CsvRow)) = Prod.snd := by
    funext p
    rfl
  rw [h, List.enum_map_snd]

/-- The budget invariant carried by the accumulation loop: either nothing
was accumulated and the total is zero, or the total is below the budget
plus the size of the most recently added dataset. -/
lemma accumGo_overshoot (b : Rat) (rest : List Station) :
    ∀ (idx : Nat) (acc : Accum),
      ((acc.sets = [] ∧ acc.memUsed = 0) ∨
        ∃ e, acc.sets.getLast? = some e ∧ acc.memUsed < b + e.dataSize) →
      (((accumGo b idx rest acc).sets = [] ∧ (accumGo b idx rest acc).memUsed = 0) ∨
        ∃ e, (accumGo b idx rest acc).sets.getLast? = some e ∧
          (accumGo b idx rest acc).memUsed < b + e.dataSize) := by
  induction rest with
  | nil =>
    intro idx acc h
    simpa [accumGo] using h
  | cons s rest ih =>
    intro idx acc h
    by_cases hb : b ≤ acc.memUsed
    · rw [accumGo, if_pos hb]
      exact h
    · cases hf : s.fetch with
      | none =>
        rw [accumGo, if_neg hb]
        simp only [hf]
        exact ih _ _ h
      | some tables =>
        cases hn : normalizeStation tables with
        | none =>
          rw [accumGo, if_neg hb]
          simp only [hf, hn]
          exact ih _ _ h
        | some rows =>
          rw [accumGo, if_neg hb]
          simp only [hf, hn]
          apply ih
          right
          refine ⟨⟨idx + 1, s.id, rows, memSizeMB rows⟩, ?_, ?_⟩
          · exact List.getLast?_concat _
          · exact add_lt_add_right (not_le.mp hb) (memSizeMB rows)

/-! ## Theorems settling the claims -/

/-- C6: serializing a Dataset's Observations into the blob payload (the
dataset identifier is excluded by construction — `Payload` carries no
identifier field, matching the `drop(columns=["data_set_id"])` before
`to_csv`) and deserializing it reproduces the same ordered sequence of
Observations with equal timestamp, `hm0` and `tp` values, and no others.
Floating-point formatting precision is outside the model: numerals are
carried exactly, as the claim's "modulo formatting precision" allows. -/
theorem payload_round_trip (rows : List Obs) :
    deserializePayload (serializePayload rows) = rows :=
  deserialize_serialize rows

/-- C8: for any two years drawn by `random.sample(range(minYear, maxYear), 2)`
— two distinct members of the half-open range — the derived window
satisfies `minYear ≤ start_year < end_year < maxYear`. -/
theorem window_within_span (g : GroupInfo) (a b : Int)
    (h : sampledFrom g.startYear g.endYear a b) :
    g.startYear ≤ (mkRequest g a b).start_year
    ∧ (mkRequest g a b).start_year < (mkRequest g a b).end_year
    ∧ (mkRequest g a b).end_year < g.endYear := by
  obtain ⟨h1, h2, h3, h4, h5⟩ := h
  simp only [mkRequest]
  exact ⟨le_min h1 h3, min_lt_max.mpr h5, max_lt h2 h4⟩

/-- C8 witness: the scenario of the spec, `minYear = 2005`, `maxYear = 2015`,
with the draw `{2007, 2011}`. -/
theorem window_within_span_witness :
    (2005 : Int) ≤ (mkRequest ⟨1, 2005, 2015⟩ 2007 2011).start_year
    ∧ (mkRequest ⟨1, 2005, 2015⟩ 2007 2011).start_year
        < (mkRequest ⟨1, 2005, 2015⟩ 2007 2011).end_year
    ∧ (mkRequest ⟨1, 2005, 2015⟩ 2007 2011).end_year < (2015 : Int) :=
  window_within_span ⟨1, 2005, 2015⟩ 2007 2011
    ⟨by decide, by decide, by decide, by decide, by decide⟩

/-- C5: accumulation stops once the running total reaches or exceeds the
budget and the crossing station is fully included, so either nothing was
accumulated (total 0), or the final total is strictly below the budget
plus the size of the last Dataset added — in particular it never exceeds
the budget by more than that last size. -/
theorem budget_overshoot_bound (b : Rat) (stations : List Station) :
    ((accumulate b stations).sets = [] ∧ (accumulate b stations).memUsed = 0)
    ∨ ∃ e, (accumulate b stations).sets.getLast? = some e ∧
        (accumulate b stations).memUsed < b + e.dataSize :=
  accumGo_overshoot b (found stations) 0 ⟨0, []⟩ (Or.inl ⟨rfl, rfl⟩)

/-- Filtering each year-table and then concatenating equals concatenating
and then filtering. -/
lemma flatten_map_filter (p : RawRow → Bool) :
    ∀ tables : List (List RawRow),
      (tables.map (fun t => t.filter p)).flatten = (tables.flatten).filter p
  | [] => rfl
  | t :: rest => by
    simp only [List.map_cons, List.flatten_cons, List.filter_append,
      flatten_map_filter p rest]

/-- `astype(float)` is all-or-nothing: one non-coercible row fails the
whole frame. -/
lemma coerceAll_eq_none (l : List RawRow) (r : RawRow) (hr : r ∈ l)
    (hc : coerceRow r = none) : coerceAll l = none := by
  induction l with
  | nil => cases hr
  | cons x rest ih =>
    rcases List.mem_cons.mp hr with rfl | hmem
    · cases hrest : coerceAll rest <;> simp [coerceAll, hc, hrest]
    · cases hx : coerceRow x <;> simp [coerceAll, hx, ih hmem]

/-- C4 counterexample: a station with one valid row and one row whose
`WVHT` is non-numeric text other than the unit marker.  The good row alone
normalizes to a one-observation Dataset, but with the corrupted row
present the whole station is dropped (`astype(float)` raises and the
`except: continue` skips the station) — refuting row-level dropping. -/
theorem row_drop_counterexample :
    normalizeStation cTablesC4 = none
    ∧ normalizeStation [[cRawOk]] = some [cObsOk] := by
  constructor <;> decide

/-- C4 as amended: dropping is row-level only for rows whose `WVHT` equals
the unit-marker text `"m"` (those are removed while the rest of the
station is kept); a row with any other non-coercible `WVHT` or `DPD`
value aborts normalization of the entire station, which is then skipped
(station-level dropping). -/
theorem normalization_drop_policy :
    (∀ tables : List (List RawRow),
      normalizeStation tables
        = normalizeStation (tables.map (fun t => t.filter (fun r => r.wvht.neqM))))
    ∧ (∀ (tables : List (List RawRow)) (r : RawRow),
        r ∈ tables.flatten → r.wvht.neqM = true → coerceRow r = none →
        normalizeStation tables = none) := by
  constructor
  · intro tables
    unfold normalizeStation
    rw [flatten_map_filter, List.filter_filter]
    have heq : (tables.flatten).filter (fun r => r.wvht.neqM && r.wvht.neqM)
        = (tables.flatten).filter (fun r => r.wvht.neqM) :=
      List.filter_congr (fun x _ => by cases hx : x.wvht.neqM <;> simp [hx])
    rw [heq]
  · intro tables r hmem hkeep hc
    unfold normalizeStation
    rw [coerceAll_eq_none _ r (List.mem_filter.mpr ⟨hmem, hkeep⟩) hc]

/-- C4 witness: the amended policy applied to the concrete corrupted
station. -/
theorem normalization_drop_policy_witness :
    normalizeStation cTablesC4
      = normalizeStation (cTablesC4.map (fun t => t.filter (fun r => r.wvht.neqM)))
    ∧ normalizeStation cTablesC4 = none :=
  ⟨normalization_drop_policy.1 cTablesC4,
   normalization_drop_policy.2 cTablesC4 cRawBad (by decide) (by decide) (by decide)⟩

/-- Keys in the accumulator stay bounded by the loop index and pairwise
strictly increasing. -/
lemma accumGo_keys (b : Rat) (rest : List Station) :
    ∀ (idx : Nat) (acc : Accum),
      (∀ e ∈ acc.sets, e.key ≤ idx) →
      ((acc.sets.map (fun e => e.key)).Pairwise (· < ·)) →
      (((accumGo b idx rest acc).sets.map (fun e => e.key)).Pairwise (· < ·)) := by
  induction rest with
  | nil =>
    intro idx acc _ hp
    simpa [accumGo] using hp
  | cons s rest ih =>
    intro idx acc hle hp
    by_cases hb : b ≤ acc.memUsed
    · rw [accumGo, if_pos hb]
      exact hp
    · cases hf : s.fetch with
      | none =>
        rw [accumGo, if_neg hb]
        simp only [hf]
        exact ih _ _ (fun e he => (hle e he).trans (Nat.le_succ idx)) hp
      | some tables =>
        cases hn : normalizeStation tables with
        | none =>
          rw [accumGo, if_neg hb]
          simp only [hf, hn]
          exact ih _ _ (fun e he => (hle e he).trans (Nat.le_succ idx)) hp
        | some rows =>
          rw [accumGo, if_neg hb]
          simp only [hf, hn]
          apply ih
          · intro e he
            rcases List.mem_append.mp he with he | he
            · exact (hle e he).trans (Nat.le_succ idx)
            · rw [List.mem_singleton.mp he]
          · rw [List.map_append]
            refine List.pairwise_append.mpr ⟨hp, ?_, ?_⟩
            · simp
            · intro x hx y hy
              rcases List.mem_map.mp hx with ⟨e, he, rfl⟩
              simp only [List.map_cons, List.map_nil, List.mem_singleton] at hy
              subst hy
              exact Nat.lt_succ_of_le (hle e he)

/-- Every accumulated entry's key points back, as `loop index + 1`, to the
station of the eligible list it was built from. -/
lemma accumGo_pos (b : Rat) (full : List Station) (rest : List Station) :
    ∀ (idx : Nat) (acc : Accum),
      (∀ j, rest[j]? = full[idx + j]?) →
      (∀ e ∈ acc.sets, ∃ s, full[e.key - 1]? = some s ∧ s.id = e.station) →
      ∀ e ∈ (accumGo b idx rest acc).sets,
        ∃ s, full[e.key - 1]? = some s ∧ s.id = e.station := by
  induction rest with
  | nil =>
    intro idx acc _ hinv
    simpa [accumGo] using hinv
  | cons s rest ih =>
    intro idx acc hj hinv
    have hhead : full[idx]? = some s := by
      have h0 := hj 0
      simpa using h0.symm
    have htail : ∀ j, rest[j]? = full[(idx + 1) + j]? := by
      intro j
      have := hj (j + 1)
      simpa [Nat.add_assoc, Nat.add_comm 1 j] using this
    by_cases hb : b ≤ acc.memUsed
    · rw [accumGo, if_pos hb]
      exact hinv
    · cases hf : s.fetch with
      | none =>
        rw [accumGo, if_neg hb]
        simp only [hf]
        exact ih _ _ htail hinv
      | some tables =>
        cases hn : normalizeStation tables with
        | none =>
          rw [accumGo, if_neg hb]
          simp only [hf, hn]
          exact ih _ _ htail hinv
        | some rows =>
          rw [accumGo, if_neg hb]
          simp only [hf, hn]
          apply ih _ _ htail
          intro e he
          rcases List.mem_append.mp he with he | he
          · exact hinv e he
          · rw [List.mem_singleton.mp he]
            exact ⟨s, by simpa using hhead, rfl⟩

/-- Provenance of accumulated Datasets: each entry was built from the
eligible station at position `key - 1`. -/
lemma accum_provenance (b : Rat) (stations : List Station) :
    ∀ e ∈ (accumulate b stations).sets,
      ∃ s, (found stations)[e.key - 1]? = some s ∧ s.id = e.station :=
  accumGo_pos b (found stations) (found stations) 0 ⟨0, []⟩
    (by intro j; simp) (by intro e he; cases he)

/-- C3 counterexample: two eligible stations, the first skipped by a fetch
failure — the single accepted Dataset is keyed `2`, not the contiguous
`1`, because the skipped station consumed loop index 0. -/
theorem dataset_id_counterexample :
    ((accumulate mem_desired cStationsC3).sets.map (fun e => e.key)) = [2]
    ∧ ((accumulate mem_desired cStationsC3).sets.map (fun e => e.key))
        ≠ List.range' 1 (accumulate mem_desired cStationsC3).sets.length := by
  constructor <;> decide

/-- C3 as amended: a Dataset's identifier is one plus the loop index of
its station in the eligible-station list, so identifiers are 1-based and
strictly increasing across accepted stations, but skipped stations do
consume identifiers and the sequence need not be contiguous. -/
theorem dataset_id_assignment (b : Rat) (stations : List Station) :
    (((accumulate b stations).sets.map (fun e => e.key)).Pairwise (· < ·))
    ∧ ∀ e ∈ (accumulate b stations).sets,
        ∃ s, (found stations)[e.key - 1]? = some s ∧ s.id = e.station :=
  ⟨accumGo_keys b (found stations) 0 ⟨0, []⟩ (by intro e he; cases he) (by simp),
   accum_provenance b stations⟩

/-- C3 witness: the amended assignment evaluated on the concrete
two-station run — the accepted entry is keyed `2` and points back to the
eligible station at index 1. -/
theorem dataset_id_assignment_witness :
    ∃ s, (found cStationsC3)[cEntryC3.key - 1]? = some s ∧ s.id = cEntryC3.station :=
  (dataset_id_assignment mem_desired cStationsC3).2 cEntryC3
    (by exact List.mem_singleton.mpr rfl)

/-- C7: a station with fewer distinct availability years than the
configured minimum span is never selected into the eligible list and no
accumulated Dataset originates from it (station identifiers are unique in
the availability listing, as produced by the `unique()` grouping). -/
theorem year_span_exclusion (stations : List Station) (s : Station) (b : Rat)
    (hmem : s ∈ stations) (hnd : (stations.map (fun t => t.id)).Nodup)
    (hspan : s.years.dedup.length < year_span) :
    s ∉ found stations
    ∧ ∀ e ∈ (accumulate b stations).sets, e.station ≠ s.id := by
  have hnotfound : s ∉ found stations := by
    intro hin
    have hpred := (List.mem_filter.mp hin).2
    rw [Bool.and_eq_true] at hpred
    have := of_decide_eq_true hpred.2
    omega
  refine ⟨hnotfound, ?_⟩
  intro e he heq
  obtain ⟨s', hget, hid⟩ := accum_provenance b stations e he
  obtain ⟨hlt, hgetEq⟩ := List.getElem?_eq_some.mp hget
  have hs'found : s' ∈ found stations := by
    rw [← hgetEq]
    exact (found stations).getElem_mem hlt
  have hs'mem : s' ∈ stations := List.mem_of_mem_filter hs'found
  have hss : s' = s :=
    List.inj_on_of_nodup_map hnd hs'mem hmem (by rw [hid, heq])
  exact hnotfound (hss ▸ hs'found)

/-- C7 witness: the concrete station with a single availability year is
excluded from the eligible list. -/
theorem year_span_exclusion_witness :
    cStSmall ∉ found cStationsC7 :=
  (year_span_exclusion cStationsC7 cStSmall mem_desired
    (by decide) (by decide) (by decide)).1

/-- The row query distributes over appended writer batches. -/
lemma rowsFor_append (a b : List RowRecord) (i : Nat) :
    rowsFor (a ++ b) i = rowsFor a i ++ rowsFor b i :=
  List.filter_append a b

/-- One writer batch keeps all its rows under its own key. -/
lemma rowsFor_writeRows_self (key : Nat) (data : List Obs) :
    rowsFor (writeRows key data) key = writeRows key data := by
  apply List.filter_eq_self.mpr
  intro r hr
  rcases List.mem_map.mp hr with ⟨o, _, rfl⟩
  simp

/-- One writer batch contributes nothing under a different key. -/
lemma rowsFor_writeRows_ne (key i : Nat) (h : key ≠ i) (data : List Obs) :
    rowsFor (writeRows key data) i = [] := by
  apply List.filter_eq_nil_iff.mpr
  intro r hr
  rcases List.mem_map.mp hr with ⟨o, _, rfl⟩
  simp [h]

/-- Unfolding of the writer's row table over the dataset list. -/
lemma allRowRecords_cons (e : DataSetEntry) (rest : List DataSetEntry) :
    allRowRecords (e :: rest) = writeRows e.key e.data ++ allRowRecords rest := by
  simp [allRowRecords]

/-- A key absent from the dataset list matches no written row. -/
lemma rowsFor_allRows_nil (i : Nat) :
    ∀ sets : List DataSetEntry, i ∉ sets.map (fun e => e.key) →
      rowsFor (allRowRecords sets) i = []
  | [], _ => rfl
  | e :: rest, h => by
    rw [List.map_cons] at h
    have hk : e.key ≠ i := fun hk => h (by rw [hk]; exact List.mem_cons_self _ _)
    have hrest : i ∉ rest.map (fun t => t.key) := fun hm => h (List.mem_cons_of_mem _ hm)
    rw [allRowRecords_cons, rowsFor_append, rowsFor_writeRows_ne _ _ hk,
      rowsFor_allRows_nil i rest hrest]
    rfl

/-- Under distinct keys, querying the written row table for one dataset's
key returns exactly that dataset's writer batch. -/
lemma rowsFor_writer :
    ∀ sets : List DataSetEntry, (sets.map (fun e => e.key)).Nodup →
      ∀ e ∈ sets, rowsFor (allRowRecords sets) e.key = writeRows e.key e.data
  | [], _, e, he => absurd he (List.not_mem_nil e)
  | f :: rest, hnd, e, he => by
    rw [List.map_cons, List.nodup_cons] at hnd
    obtain ⟨hfk, hndr⟩ := hnd
    rw [allRowRecords_cons, rowsFor_append]
    rcases List.mem_cons.mp he with rfl | hmem
    · rw [rowsFor_writeRows_self, rowsFor_allRows_nil _ rest hfk, List.append_nil]
    · have hne : f.key ≠ e.key := by
        intro hkey
        exact hfk (hkey.symm ▸ List.mem_map.mpr ⟨e, hmem, rfl⟩)
      rw [rowsFor_writeRows_ne _ _ hne, List.nil_append]
      exact rowsFor_writer rest hndr e hmem

/-- Unfolding of the writer's blob table over the dataset list. -/
lemma allBlobRecords_cons (e : DataSetEntry) (rest : List DataSetEntry) :
    allBlobRecords (e :: rest)
      = ⟨e.key, serializePayload e.data⟩ :: allBlobRecords rest := rfl

/-- A key absent from the dataset list matches no blob. -/
lemma binaryQ_allBlobs_nil (i : Nat) :
    ∀ sets : List DataSetEntry, i ∉ sets.map (fun e => e.key) →
      binaryQ (allBlobRecords sets) i = []
  | [], _ => rfl
  | e :: rest, h => by
    rw [List.map_cons] at h
    have hk : e.key ≠ i := fun hk => h (by rw [hk]; exact List.mem_cons_self _ _)
    have hrest : i ∉ rest.map (fun t => t.key) := fun hm => h (List.mem_cons_of_mem _ hm)
    have hrec := binaryQ_allBlobs_nil i rest hrest
    simp only [binaryQ, allBlobRecords_cons, List.filter_cons] at hrec ⊢
    simp [hk, hrec]

/-- Under distinct keys, the blob query for one dataset's key returns
exactly its single blob record. -/
lemma binaryQ_writer :
    ∀ sets : List DataSetEntry, (sets.map (fun e => e.key)).Nodup →
      ∀ e ∈ sets, binaryQ (allBlobRecords sets) e.key
        = [⟨e.key, serializePayload e.data⟩]
  | [], _, e, he => absurd he (List.not_mem_nil e)
  | f :: rest, hnd, e, he => by
    rw [List.map_cons, List.nodup_cons] at hnd
    obtain ⟨hfk, hndr⟩ := hnd
    rw [allBlobRecords_cons]
    show List.filter _ _ = _
    rw [List.filter_cons]
    rcases List.mem_cons.mp he with rfl | hmem
    · simp only [beq_self_eq_true, if_true]
      rw [show List.filter _ (allBlobRecords rest) = binaryQ (allBlobRecords rest) e.key from rfl,
        binaryQ_allBlobs_nil _ rest hfk]
    · have hne : f.key ≠ e.key := by
        intro hkey
        exact hfk (hkey.symm ▸ List.mem_map.mpr ⟨e, hmem, rfl⟩)
      simp only [beq_iff_eq, hne, if_false]
      exact binaryQ_writer rest hndr e hmem

/-- Reading a writer batch back as observations is the identity. -/
lemma map_toObs_writeRows (key : Nat) (data : List Obs) :
    (writeRows key data).map RowRecord.toObs = data := by
  induction data with
  | nil => rfl
  | cons o rest ih =>
    show RowRecord.toObs ⟨key, o.date, o.hm0, o.tp⟩
        :: (writeRows key rest).map RowRecord.toObs = o :: rest
    rw [ih]
    rfl

/-- The year filter commutes with the writer's row encoding. -/
lemma filter_year_writeRows (key : Nat) (p : ReqParam) (data : List Obs) :
    (writeRows key data).filter (fun r => yearInRange p r.date)
      = writeRows key (data.filter (fun o => yearInRange p o.date)) := by
  unfold writeRows
  rw [List.filter_map]
  congr 1

/-- The pushed-down query is the per-dataset query followed by the year
filter. -/
lemma rowsFilteredQ_eq (R : List RowRecord) (p : ReqParam) :
    rowsFilteredQ R p = (rowsFor R p.id).filter (fun r => yearInRange p r.date) := by
  unfold rowsFilteredQ rowsFor
  rw [List.filter_filter]
  exact List.filter_congr (fun x _ => by rw [Bool.and_comm])

/-- C2: for every Dataset written by the Writer (distinct keys, as the
accumulator produces), the blob-side aggregates equal the row-side
aggregates for the full scan, and for the range-filtered scan over any
inclusive year bounds — minimum and maximum timestamps are equal and the
`tp` sums are exactly equal in the rational model, hence in particular
within any relative tolerance such as 1e-6. -/
theorem cross_representation_agreement (sets : List DataSetEntry)
    (hnd : (sets.map (fun e => e.key)).Nodup) (e : DataSetEntry) (he : e ∈ sets)
    (startY endY : Int) :
    binFullAgg (allBlobRecords sets) e.key
      = some (rowFullAgg (allRowRecords sets) e.key)
    ∧ binFilteredAgg (allBlobRecords sets) ⟨e.key, startY, endY⟩
      = some (rowFilteredAgg (allRowRecords sets) ⟨e.key, startY, endY⟩) := by
  have hrow := rowsFor_writer sets hnd e he
  have hblob := binaryQ_writer sets hnd e he
  constructor
  · simp [binFullAgg, rowFullAgg, hblob, hrow, map_toObs_writeRows,
      deserialize_serialize]
  · simp [binFilteredAgg, rowFilteredAgg, rowsFilteredQ_eq, hblob, hrow,
      filter_year_writeRows, map_toObs_writeRows, deserialize_serialize]

/-- C2 witness: the agreement evaluated at a concrete one-dataset writer
output and the window 2000..2001. -/
theorem cross_representation_agreement_witness :
    binFullAgg (allBlobRecords cSetsC2) cEntryC2.key
      = some (rowFullAgg (allRowRecords cSetsC2) cEntryC2.key)
    ∧ binFilteredAgg (allBlobRecords cSetsC2) ⟨cEntryC2.key, 2000, 2001⟩
      = some (rowFilteredAgg (allRowRecords cSetsC2) ⟨cEntryC2.key, 2000, 2001⟩) :=
  cross_representation_agreement cSetsC2 (by decide) cEntryC2
    (by exact List.mem_singleton.mpr rfl) 2000 2001

/-- If any queried id has no blob record, the full-scan loop dies with the
uncaught `IndexError` from `res[0]`. -/
lemma fullScanGo_error (R : List RowRecord) (B : List BlobRecord) (i : Nat)
    (hempty : binaryQ B i = []) :
    ∀ ids : List Nat, i ∈ ids → fullScanGo R B ids = .error .indexError := by
  intro ids
  induction ids with
  | nil => intro hi; cases hi
  | cons j rest ih =>
    intro hi
    rw [fullScanGo]
    rcases List.mem_cons.mp hi with rfl | hmem
    · rw [hempty]
      rfl
    · cases hb : (binaryQ B j).head? with
      | none => rfl
      | some blob => rw [ih hmem]

/-- Same for the filtered-scan loop over the request list. -/
lemma filteredScanGo_error (R : List RowRecord) (B : List BlobRecord)
    (p : ReqParam) (hempty : binaryQ B p.id = []) :
    ∀ reqs : List ReqParam, p ∈ reqs →
      filteredScanGo R B reqs = .error .indexError := by
  intro reqs
  induction reqs with
  | nil => intro hp; cases hp
  | cons q rest ih =>
    intro hp
    rw [filteredScanGo]
    rcases List.mem_cons.mp hp with rfl | hmem
    · rw [hempty]
      rfl
    · cases hb : (binaryQ B q.id).head? with
      | none => rfl
      | some blob => rw [ih hmem]

/-- With a blob present for every queried id, the full-scan loop
completes. -/
lemma fullScanGo_ok (R : List RowRecord) (B : List BlobRecord) :
    ∀ ids : List Nat, (∀ i ∈ ids, binaryQ B i ≠ []) →
      exceptOk (fullScanGo R B ids) = true := by
  intro ids
  induction ids with
  | nil => intro _; rfl
  | cons j rest ih =>
    intro h
    rw [fullScanGo]
    cases hb : (binaryQ B j).head? with
    | none =>
      exact absurd (List.head?_eq_none_iff.mp hb) (h j (List.mem_cons_self _ _))
    | some blob =>
      have hrest := ih (fun i hi => h i (List.mem_cons_of_mem _ hi))
      cases hres : fullScanGo R B rest with
      | error e => rw [hres] at hrest; simp [exceptOk] at hrest
      | ok pair =>
        obtain ⟨rl, bl⟩ := pair
        rfl

/-- With a blob present for every request id, the filtered-scan loop
completes. -/
lemma filteredScanGo_ok (R : List RowRecord) (B : List BlobRecord) :
    ∀ reqs : List ReqParam, (∀ p ∈ reqs, binaryQ B p.id ≠ []) →
      exceptOk (filteredScanGo R B reqs) = true := by
  intro reqs
  induction reqs with
  | nil => intro _; rfl
  | cons q rest ih =>
    intro h
    rw [filteredScanGo]
    cases hb : (binaryQ B q.id).head? with
    | none =>
      exact absurd (List.head?_eq_none_iff.mp hb) (h q (List.mem_cons_self _ _))
    | some blob =>
      have hrest := ih (fun p hp => h p (List.mem_cons_of_mem _ hp))
      cases hres : filteredScanGo R B rest with
      | error e => rw [hres] at hrest; simp [exceptOk] at hrest
      | ok pair =>
        obtain ⟨rl, bl⟩ := pair
        rfl

/-- If any group's year span has fewer than two sampleable years,
request building dies with `random.sample`'s `ValueError`. -/
lemma buildRequestsGo_error (sampler : Nat → Int × Int) :
    ∀ (groups : List GroupInfo) (n : Nat),
      (∃ g ∈ groups, g.endYear - g.startYear < 2) →
      buildRequestsGo sampler groups n = .error .valueError := by
  intro groups
  induction groups with
  | nil =>
    intro n h
    obtain ⟨g, hg, _⟩ := h
    cases hg
  | cons q rest ih =>
    intro n h
    rw [buildRequestsGo]
    by_cases hq : q.endYear - q.startYear < 2
    · rw [if_pos hq]
    · rw [if_neg hq]
      obtain ⟨g, hg, hbad⟩ := h
      rcases List.mem_cons.mp hg with rfl | hmem
      · exact absurd hbad hq
      · rw [ih (n + 1) ⟨g, hmem, hbad⟩]

/-- With every group spanning at least two sampleable years, request
building succeeds and produces one request per group, in group order. -/
lemma buildRequestsGo_ok (sampler : Nat → Int × Int) :
    ∀ (groups : List GroupInfo) (n : Nat),
      (∀ g ∈ groups, 2 ≤ g.endYear - g.startYear) →
      ∃ rs, buildRequestsGo sampler groups n = .ok rs
        ∧ rs.map (fun p => p.id) = groups.map (fun g => g.data_set_id) := by
  intro groups
  induction groups with
  | nil => intro n _; exact ⟨[], rfl, rfl⟩
  | cons q rest ih =>
    intro n h
    obtain ⟨rs, hok, hmap⟩ := ih (n + 1) (fun g hg => h g (List.mem_cons_of_mem _ hg))
    refine ⟨mkRequest q (sampler n).1 (sampler n).2 :: rs, ?_, ?_⟩
    · rw [buildRequestsGo, if_neg (not_lt.mpr (h q (List.mem_cons_self _ _))), hok]
    · simp [mkRequest, hmap]

/-- The request groups carry exactly the distinct dataset ids of the row
store. -/
lemma reqInfo_ids (R : List RowRecord) :
    (reqInfoOf R).map (fun g => g.data_set_id) = datasetIds R := by
  simp [reqInfoOf, List.map_map, Function.comp_def]

/-- C9: `availabe_ids` is the hard-coded list 1..57 and both benchmark
loops read `res[0]` unchecked: if the blob table holds no record for a
queried identifier, the loop terminates with the uncaught out-of-range
indexing error (there is no typed storage error in the script), and
conversely a blob per queried identifier suffices for each loop to
complete — making one BlobRecord per identifier an unstated
precondition. -/
theorem blob_lookup_unchecked :
    (∀ (R : List RowRecord) (B : List BlobRecord) (i : Nat),
        i ∈ availabe_ids → binaryQ B i = [] →
        fullScan R B = .error .indexError)
    ∧ (∀ (R : List RowRecord) (B : List BlobRecord) (reqs : List ReqParam) (p : ReqParam),
        p ∈ reqs → binaryQ B p.id = [] →
        filteredScan R B reqs = .error .indexError)
    ∧ (∀ (R : List RowRecord) (B : List BlobRecord),
        (∀ i ∈ availabe_ids, binaryQ B i ≠ []) →
        exceptOk (fullScan R B) = true)
    ∧ (∀ (R : List RowRecord) (B : List BlobRecord) (reqs : List ReqParam),
        (∀ p ∈ reqs, binaryQ B p.id ≠ []) →
        exceptOk (filteredScan R B reqs) = true) :=
  ⟨fun R B i hi he => fullScanGo_error R B i he availabe_ids hi,
   fun R B reqs p hp he => filteredScanGo_error R B p he reqs hp,
   fun R B h => fullScanGo_ok R B availabe_ids h,
   fun R B reqs h => filteredScanGo_ok R B reqs h⟩

/-- C9 witness: an empty blob store crashes the full scan with the
indexing error; the fully-populated concrete blob store completes it. -/
theorem blob_lookup_unchecked_witness :
    fullScan [] [] = .error .indexError
    ∧ exceptOk (fullScan [] cBlobStoreC1) = true :=
  ⟨blob_lookup_unchecked.1 [] [] 1 (by decide) rfl,
   blob_lookup_unchecked.2.2.1 [] cBlobStoreC1 (by decide)⟩

/-- C10: request building runs before either measurement loop, and for a
dataset whose row data spans fewer than two sampleable calendar years
(`maxYear - minYear < 2`) the `random.sample(range(minYear, maxYear), 2)`
call raises, so the whole benchmark run aborts with the `ValueError`
before any measurement is taken (an `error` result carries no
measurement tables). -/
theorem short_span_aborts (R : List RowRecord) (B : List BlobRecord)
    (sampler : Nat → Int × Int) (g : GroupInfo) (hg : g ∈ reqInfoOf R)
    (hshort : g.endYear - g.startYear < 2) :
    runRetrieval R B sampler = .error .valueError := by
  have h : buildRequests R sampler = .error .valueError :=
    buildRequestsGo_error sampler (reqInfoOf R) 0 ⟨g, hg, hshort⟩
  rw [runRetrieval, h]

/-- C10 witness: a single dataset entirely inside the year 2000 aborts
the run. -/
theorem short_span_aborts_witness :
    runRetrieval cRowStoreC10 [] cSampler = .error .valueError :=
  short_span_aborts cRowStoreC10 [] cSampler ⟨1, 2000, 2000⟩ (by decide) (by decide)

set_option maxRecDepth 40000 in
/-- C1 counterexample: a concrete run in which the two representations
disagree on the maximum timestamp of dataset 1 (rows reach year 2003, the
blob payload stops at year 2000), yet the harness completes without
raising anything: it emits only the two independent per-representation
measurement tables, produces no `ConsistencyViolation`, and tags nothing —
refuting the claim that a mismatch is surfaced rather than silently
ignored. -/
theorem mismatch_not_surfaced_counterexample :
    exceptOk (runRetrieval cRowStoreC1 cBlobStoreC1 cSampler) = true
    ∧ (binFullAgg cBlobStoreC1 1).map Agg.max_date
        ≠ some (rowFullAgg cRowStoreC1 1).max_date := by
  constructor
  · decide
  · decide

/-- C1 as amended: the harness performs no cross-representation
comparison at all.  Whenever its two genuine failure preconditions hold
(every row group spans at least two sampleable years, and a blob record
exists for every queried and every grouped identifier), the run completes
successfully regardless of whether the representations' aggregates agree;
a mismatch appears only as differing values in the separate
per-representation measurement tables and is never detected, tagged or
raised by the harness itself. -/
theorem run_never_flags_mismatch (R : List RowRecord) (B : List BlobRecord)
    (sampler : Nat → Int × Int)
    (hspan : ∀ g ∈ reqInfoOf R, 2 ≤ g.endYear - g.startYear)
    (hfull : ∀ i ∈ availabe_ids, binaryQ B i ≠ [])
    (hgroups : ∀ i ∈ datasetIds R, binaryQ B i ≠ []) :
    exceptOk (runRetrieval R B sampler) = true := by
  obtain ⟨rs, hok, hmap⟩ := buildRequestsGo_ok sampler (reqInfoOf R) 0 hspan
  have hreq : buildRequests R sampler = .ok rs := hok
  rw [runRetrieval, hreq]
  have h1 : exceptOk (fullScan R B) = true := fullScanGo_ok R B availabe_ids hfull
  cases hfs : fullScan R B with
  | error e =>
    rw [hfs] at h1
    simp [exceptOk] at h1
  | ok full =>
    have hreqids : ∀ p ∈ rs, binaryQ B p.id ≠ [] := by
      intro p hp
      apply hgroups
      have hmem : p.id ∈ rs.map (fun p => p.id) := List.mem_map_of_mem _ hp
      rw [hmap, reqInfo_ids] at hmem
      exact hmem
    have h2 : exceptOk (filteredScan R B rs) = true :=
      filteredScanGo_ok R B rs hreqids
    show exceptOk (match filteredScan R B rs with
      | .error e => (.error e : Except PyErr RunResult)
      | .ok filt => .ok ⟨full.1, full.2, filt.1, filt.2⟩) = true
    cases hfl : filteredScan R B rs with
    | error e =>
      rw [hfl] at h2
      simp [exceptOk] at h2
    | ok filt => rfl

set_option maxRecDepth 40000 in
/-- C1 witness (amended claim): the mismatched concrete stores satisfy
the preconditions and the run completes successfully. -/
theorem run_never_flags_mismatch_witness :
    exceptOk (runRetrieval cRowStoreC1 cBlobStoreC1 cSampler) = true :=
  run_never_flags_mismatch cRowStoreC1 cBlobStoreC1 cSampler
    (by decide) (by decide) (by decide)

end BinaryTelemetry
